import Mathlib

/-!
Verification of the specification-resolution and defect-classification engine
of the spec-pipeline backend (`backend/pipeline.py`, `backend/app.py`,
`backend/models.py`).  Python functions are shallowly embedded as executable
Lean definitions: strings stay strings, Python floats are modelled as
rationals (every arithmetic step used here is exact in binary-independent
terms and the claims are about exact or approximate numeric values),
database rows become records in a list, and SQLAlchemy timestamps (ISO
strings whose lexicographic order agrees with chronological order) are
modelled as naturals with `0` for a missing timestamp.
-/

namespace SpecPipeline

/-! ## Python string primitives -/

/-- ASCII lower-casing of a single character, as `str.lower` acts on the
characters appearing in this code base (`µ` and `°` are fixed points). -/
def lowerChar (c : Char) : Char :=
  if 'A' ≤ c ∧ c ≤ 'Z' then Char.ofNat (c.toNat + 32) else c

/-- Python `str.lower()` on the alphabets used by the pipeline. -/
def pyLower (s : String) : String := String.mk (s.data.map lowerChar)

/-- Whitespace characters recognised by Python `str.strip()` / `float()`. -/
def isPySpace (c : Char) : Bool :=
  c = ' ' ∨ c = '\t' ∨ c = '\n' ∨ c = '\r'

/-- Python `str.strip()`. -/
def pyStrip (s : String) : String :=
  String.mk (((s.data.dropWhile isPySpace).reverse.dropWhile isPySpace).reverse)

/-- Decimal digit test. -/
def isDig (c : Char) : Bool := '0' ≤ c ∧ c ≤ '9'

/-- Numeric value of a digit string read most-significant first. -/
def digitsVal (cs : List Char) : Nat :=
  cs.foldl (fun n c => 10 * n + (c.toNat - 48)) 0

/-- Value of an unsigned decimal literal `d+`, `d+.d*`, `d*.d+` (the forms
`float()` accepts that occur in this code base), as a rational. -/
def parseUnsigned (cs : List Char) : Option ℚ :=
  let ds := cs.takeWhile isDig
  let rest := cs.dropWhile isDig
  match rest with
  | [] => if ds.isEmpty then none else some (digitsVal ds : ℚ)
  | '.' :: rest2 =>
      let fs := rest2.takeWhile isDig
      let rest3 := rest2.dropWhile isDig
      if rest3.isEmpty ∧ ¬ (ds.isEmpty ∧ fs.isEmpty) then
        some ((digitsVal ds : ℚ) + (digitsVal fs : ℚ) / (10 ^ fs.length : ℚ))
      else none
  | _ => none

/-- Python `float(s)`: strip surrounding whitespace, optional sign, decimal
literal; `none` models the `ValueError` raised on anything else. -/
def pyFloat (s : String) : Option ℚ :=
  let cs := (s.data.dropWhile isPySpace).reverse.dropWhile isPySpace |>.reverse
  match cs with
  | '-' :: rest => (parseUnsigned rest).map (fun q => -q)
  | '+' :: rest => parseUnsigned rest
  | _ => parseUnsigned cs

/-- Substring containment, Python `needle in hay`. -/
def containsSub (hay needle : List Char) : Bool :=
  match hay with
  | [] => needle.isEmpty
  | _ :: rest => needle.isPrefixOf hay || containsSub rest needle

/-- Python `needle in hay` on strings. -/
def strContains (hay needle : String) : Bool := containsSub hay.data needle.data

/-! ## Unit Normalizer (`pipeline.normalize_numeric`)

The Python function returns `None` on an unparseable value and otherwise a
`str(...)` of a float; the numeric content is modelled as `Option ℚ`.  The
cascade of `if target == ...: if u == ...: return ...` blocks falls through
to a final `return str(v)`, which the linearised conditional below mirrors
branch for branch. -/

/-- Python `value.replace("±", "")`. -/
def stripPM (s : String) : String := String.mk (s.data.filter (fun c => c ≠ '±'))

/-- Shallow embedding of `pipeline.normalize_numeric(value, unit, target)`. -/
def normalize_numeric (value unit target : String) : Option ℚ :=
  match pyFloat (stripPM value) with
  | none => none
  | some v =>
    if unit = "" then some v
    else
      let u := pyLower unit
      if target = "mm" ∧ u = "mm" then some v
      else if target = "mm" ∧ u = "cm" then some (v * 10)
      else if target = "mm" ∧ u = "m" then some (v * 1000)
      else if target = "mm" ∧ (u = "µm" ∨ u = "um" ∨ u = "micron") then some (v / 1000)
      else if target = "um" ∧ (u = "µm" ∨ u = "um" ∨ u = "micron") then some v
      else if target = "um" ∧ u = "mm" then some (v * 1000)
      else if target = "bar" ∧ u = "bar" then some v
      else if target = "bar" ∧ u = "psi" then some (v * (689476 / 10000000 : ℚ))
      else if (target = "c" ∨ target = "°c" ∨ target = "celsius") ∧ u = "f" then
        some ((v - 32) * 5 / 9)
      else if target = "c" ∨ target = "°c" ∨ target = "celsius" then some v
      else some v

/-! ## Value/Unit Extractor (`pipeline.extract_value_unit`)

The regex `([±]?\d+(?:\.\d+)?)\s*(mm|cm|m|µm|um|micron|bar|psi|°C|C|F)?` with
`re.IGNORECASE` is embedded as an explicit leftmost scanner.  `re.search`
finds the leftmost starting position at which the whole pattern matches;
every quantifier here is greedy and the pattern always succeeds once the
mandatory numeric group matches, so no backtracking can occur: digits are
maximal, the optional fraction requires a dot followed by at least one
digit, whitespace is maximal, and the ordered alternation of unit tokens is
tried left to right at the position after the whitespace. -/

/-- Ordered alternation of unit tokens exactly as in `VALUE_UNIT_RE`. -/
def unitAlternatives : List String :=
  ["mm", "cm", "m", "µm", "um", "micron", "bar", "psi", "°C", "C", "F"]

/-- Case-insensitive prefix match of a pattern against text, returning the
matched text characters (original case, as a regex group would). -/
def ciMatchStart : List Char → List Char → Option (List Char)
  | [], _ => some []
  | _ :: _, [] => none
  | p :: ps, t :: ts =>
      if lowerChar p = lowerChar t then (ciMatchStart ps ts).map (fun m => t :: m)
      else none

/-- First unit alternative matching at the current position, in the order the
alternation lists them. -/
def tryUnits : List String → List Char → Option (List Char)
  | [], _ => none
  | u :: us, cs =>
      match ciMatchStart u.data cs with
      | some m => some m
      | none => tryUnits us cs

/-- Attempt of the whole pattern at one fixed starting position. -/
def matchValueUnitAt (cs : List Char) : Option (String × Option String) :=
  let pm : List Char × List Char :=
    match cs with
    | '±' :: r => (['±'], r)
    | _ => ([], cs)
  let ds := pm.2.takeWhile isDig
  if ds.isEmpty then none
  else
    let afterDigits := pm.2.dropWhile isDig
    let frac : List Char × List Char :=
      match afterDigits with
      | '.' :: r =>
          let fs := r.takeWhile isDig
          if fs.isEmpty then ([], afterDigits) else ('.' :: fs, r.dropWhile isDig)
      | _ => ([], afterDigits)
    let afterWs := frac.2.dropWhile isPySpace
    some (String.mk (pm.1 ++ ds ++ frac.1),
          (tryUnits unitAlternatives afterWs).map String.mk)

/-- Leftmost search, as `re.search`. -/
def reSearchValueUnit : List Char → Option (String × Option String)
  | [] => none
  | c :: rest =>
      match matchValueUnitAt (c :: rest) with
      | some r => some r
      | none => reSearchValueUnit rest

/-- Python `s.replace("micron", "µm")`: leftmost, non-overlapping. -/
def replaceMicron : List Char → List Char
  | 'm' :: 'i' :: 'c' :: 'r' :: 'o' :: 'n' :: rest => 'µ' :: 'm' :: replaceMicron rest
  | c :: rest => c :: replaceMicron rest
  | [] => []

/-- Shallow embedding of `pipeline.extract_value_unit(text_line)`. -/
def extract_value_unit (line : String) : Option String × Option String :=
  match reSearchValueUnit line.data with
  | none => (none, none)
  | some (val, none) => (some val, none)
  | some (val, some u) => (some val, some (pyLower (String.mk (replaceMicron u.data))))

/-! ## Extraction Orchestrator: normalization-target heuristic -/

/-- Target chosen for a parameter name in
`process_all_and_build_master_from_s3` (identical chain in the local
variant): first matching keyword group wins, and the temperature target is
the capital string `"C"` exactly as the source passes it. -/
def chooseTarget (param : String) : Option String :=
  if strContains param "diameter" ∨ strContains param "hole" ∨ strContains param "cap" ∨
     strContains param "thickness" ∨ strContains param "length" ∨ strContains param "width" ∨
     strContains param "size" then some "mm"
  else if strContains param "surface_finish" ∨ strContains param "finish" then some "um"
  else if strContains param "pressure" then some "bar"
  else if strContains param "temperature" then some "C"
  else none

/-- Outcome of `norm_val = normalize_numeric(val, unit, target) if target
else val` for one extracted line. -/
inductive NormOutcome
  | num (q : ℚ)
  | verbatim (s : String)
  | failed
deriving DecidableEq

/-- Value the orchestrator stores for a line mapped to `param` with extracted
value `val` and unit `unit`. -/
def lineNormValue (param val unit : String) : NormOutcome :=
  match chooseTarget param with
  | some t =>
      match normalize_numeric val unit t with
      | some q => NormOutcome.num q
      | none => NormOutcome.failed
  | none => NormOutcome.verbatim val

/-! ## Variant store (`models.MasterSpec` rows)

One row of the `master_specs` table.  `value` and `unit` are nullable
columns; `added_at` / `uploaded_at` are server-side timestamps whose ISO
renderings compare lexicographically in chronological order, modelled as
naturals (`0` for a missing timestamp, matching `x.get("added_at") or ""`
being the minimum of the string order). -/
structure SpecRow where
  param : String
  value : Option String
  unit : Option String
  raw : String
  source : String
  priority : Int
  uploaded_at : Nat
  added_at : Nat
deriving DecidableEq

/-- Candidate variant produced by the Extraction Orchestrator for one line
(the dict appended in `parsed.setdefault(param, []).append({...})`),
restricted to the fields the store consumes. -/
structure Variant where
  param : String
  raw : String
  value : Option String
  unit : Option String
  source : String
  priority : Int
deriving DecidableEq

/-- Upsert identity used by `_build_master_from_parsed_data`: same
(parameter, source type, raw line text). -/
def matchKey (v : Variant) (r : SpecRow) : Bool :=
  r.param = v.param ∧ r.source = v.source ∧ r.raw = v.raw

/-- Replace the first element satisfying `p` (SQLAlchemy `.first()` followed
by an in-place update touches exactly one row). -/
def updateFirst (p : α → Bool) (f : α → α) : List α → List α
  | [] => []
  | x :: xs => if p x then f x :: xs else x :: updateFirst p f xs

/-- One upsert step of `_build_master_from_parsed_data`: if a row with the
same (param, source, raw) exists, overwrite its value/unit/priority in
place; otherwise insert a new row stamped `t`. -/
def upsertVariant (store : List SpecRow) (v : Variant) (t : Nat) : List SpecRow :=
  if store.any (matchKey v) then
    updateFirst (matchKey v)
      (fun r => { r with value := v.value, unit := v.unit, priority := v.priority }) store
  else
    store ++ [⟨v.param, v.value, v.unit, v.raw, v.source, v.priority, t, t⟩]

/-- The persist loop over every candidate variant of a processing run (all
queries of a run see the session's pending inserts, so the fold threads the
store through). -/
def upsertAll (store : List SpecRow) (vs : List Variant) (t : Nat) : List SpecRow :=
  vs.foldl (fun s v => upsertVariant s v t) store

/-! ## Merge Resolver (`_build_master_from_parsed_data`, second half) -/

/-- Keys of the `CANONICAL` catalog, in dict insertion order. -/
def CANONICAL_PARAMS : List String :=
  ["cap_diameter", "tear_size_limit", "surface_finish_tolerance", "hole_diameter",
   "length_tolerance", "width_tolerance", "thickness_tolerance", "material_type",
   "max_pressure", "max_temperature", "min_temperature"]

/-- Rows of the store for one parameter, in store order (the per-param
`session.query(MasterSpec).filter(...)` scan). -/
def paramRows (store : List SpecRow) (param : String) : List SpecRow :=
  store.filter (fun r => r.param = param)

/-- Strict order on the Python sort key `(priority, added_at or "")`. -/
def keyLt (a b : SpecRow) : Bool :=
  a.priority < b.priority ∨ (a.priority = b.priority ∧ a.added_at < b.added_at)

/-- Stable insertion keeping earlier elements in front of key-equal later
ones, so `sortVariants` is extensionally Python's stable `sorted` by the
key `(priority, added_at or "")`. -/
def insertByKey (x : SpecRow) : List SpecRow → List SpecRow
  | [] => [x]
  | y :: ys => if keyLt y x then y :: insertByKey x ys else x :: y :: ys

/-- Python `sorted(api_variants, key=lambda x: (priority, added_at or ""))`. -/
def sortVariants (rows : List SpecRow) : List SpecRow :=
  rows.foldr insertByKey []

/-- The `chosen` variant of the merged master: `api_variants_sorted[0]` when
any variant exists. -/
def chooseVariant (rows : List SpecRow) : Option SpecRow :=
  (sortVariants rows).head?

/-- One entry of `merged_master[param]`. -/
structure MasterEntry where
  chosen : Option SpecRow
  variants : List SpecRow
deriving DecidableEq

/-- The merged master built after a processing run: one entry per catalog
parameter, from the persisted rows of that parameter. -/
def buildMergedMaster (store : List SpecRow) : List (String × MasterEntry) :=
  CANONICAL_PARAMS.map
    (fun p => (p, ⟨chooseVariant (paramRows store p), paramRows store p⟩))

/-- One row of the CSV snapshot (`df_rows` entry). -/
structure SnapshotRow where
  param : String
  value : String
  unit : String
  source : String
deriving DecidableEq

/-- The flat snapshot written after the merge: `chosen.get("value") or ""`
and friends collapse a missing or empty field to the empty string. -/
def snapshotRows (merged : List (String × MasterEntry)) : List SnapshotRow :=
  merged.map (fun pe =>
    ⟨pe.1,
     (pe.2.chosen.bind (fun c => c.value)).getD "",
     (pe.2.chosen.bind (fun c => c.unit)).getD "",
     match pe.2.chosen with
     | some c => c.source
     | none => ""⟩)

/-! ## `/specs/` merged view, strategy `priority` (`app.get_specs`)

The endpoint folds over all rows keeping, per parameter, the row whose
priority is numerically larger (`if p not in merged or r.priority >
merged[p].priority`); dict insertion order is modelled by an association
list whose keys stay at their first position. -/

/-- Replace the value stored under key `k` in an association list. -/
def replaceAssoc (m : List (String × SpecRow)) (k : String) (v : SpecRow) :
    List (String × SpecRow) :=
  m.map (fun kv => if kv.1 = k then (k, v) else kv)

/-- Shallow embedding of the `strategy == "priority"` fold of `get_specs`. -/
def get_specs_priority (rows : List SpecRow) : List (String × SpecRow) :=
  rows.foldl
    (fun m r =>
      match m.lookup r.param with
      | none => m ++ [(r.param, r)]
      | some cur => if r.priority > cur.priority then replaceAssoc m r.param r else m)
    []

/-! ## Manual override upsert (`app.update_specs`, per-parameter body) -/

/-- The synthetic raw string `f"USER_EDIT:{value} {unit or ''}".strip()`. -/
def userRaw (value : String) (unit : Option String) : String :=
  pyStrip ("USER_EDIT:" ++ value ++ " " ++ unit.getD "")

/-- Body of the `update_specs` loop for one parameter once `value` and
`unit` have been parsed from the payload: skip blank values, update the
first existing `USER` row in place, otherwise append a fresh row with
priority `0`.  `t` stamps a newly inserted row. -/
def update_specs_entry (store : List SpecRow) (param value : String)
    (unit : Option String) (source : String) (t : Nat) : List SpecRow :=
  if pyStrip value = "" then store
  else if store.any (fun r => r.param = param ∧ r.source = "USER") then
    updateFirst (fun r => r.param = param ∧ r.source = "USER")
      (fun r =>
        { r with
          value := some (pyStrip value)
          unit := if unit.getD "" = "" then r.unit else unit
          raw := userRaw value unit
          priority := 0 })
      store
  else
    store ++ [⟨param, some (pyStrip value), some (unit.getD ""), userRaw value unit,
               source, 0, t, t⟩]

/-- Number of `USER`-sourced rows stored for a parameter. -/
def countUser (store : List SpecRow) (param : String) : Nat :=
  (store.filter (fun r => r.param = param ∧ r.source = "USER")).length

/-! ## Defect Rule Engine (`pipeline.classify_defect_with_master`)

The rule table `defects.csv` is data outside the embedded code; a rule is
modelled by the record the spec's data model describes (defect type, special
tag, referenced parameter, field, operator, textual outcomes), with the
empty string standing for an absent cell. -/

/-- One declarative defect rule row. -/
structure DefectRule where
  defect_type : String
  special : String
  spec_name : String
  field : String
  op : String
  ok : String
  fail : String
deriving DecidableEq

/-- Incoming defect record: declared type plus named fields (values
string-rendered, as the classifier feeds them to `float`/`str`). -/
structure Defect where
  defect_type : String
  fields : List (String × String)
deriving DecidableEq

/-- `merged_master.get(name, {}).get("chosen")`. -/
def lookupChosen (mm : List (String × MasterEntry)) (name : String) : Option SpecRow :=
  match mm.lookup name with
  | none => none
  | some e => e.chosen

/-- Python `str(x)` on an optional string (`str(None) = "None"`). -/
def pyStrOfOpt (o : Option String) : String := o.getD "None"

/-- The five comparison operators the classifier accepts. -/
def OPS : List String := ["<=", "<", ">=", ">", "=="]

/-- Evaluation of `eval(f"{val_num} {op} {spec_num}")` for an operator drawn
from `OPS`. -/
def evalCmp (op : String) (valNum specNum : ℚ) : Bool :=
  if op = "<=" then decide (valNum ≤ specNum)
  else if op = "<" then decide (valNum < specNum)
  else if op = ">=" then decide (specNum ≤ valNum)
  else if op = ">" then decide (specNum < valNum)
  else decide (valNum = specNum)

/-- Shallow embedding of `classify_defect_with_master(defect, merged_master)`
over an explicit rule table. -/
def classify_defect_with_master (rules : List DefectRule) (defect : Defect)
    (mm : List (String × MasterEntry)) : String :=
  match rules.filter (fun r => pyLower r.defect_type = pyLower defect.defect_type) with
  | [] => "Unknown1"
  | rule :: _ =>
    if pyLower rule.special = "always_fail" then rule.fail
    else if pyLower rule.special = "coating" then
      match lookupChosen mm "coating_required" with
      | none => rule.ok
      | some c =>
          if pyLower (pyStrOfOpt c.value) = "yes" ∨ pyLower (pyStrOfOpt c.value) = "true" ∨
             pyLower (pyStrOfOpt c.value) = "1" then rule.fail
          else rule.ok
    else
      if rule.spec_name ≠ "" ∧
         ((lookupChosen mm rule.spec_name).bind (fun c => c.value) = none ∨
          (lookupChosen mm rule.spec_name).bind (fun c => c.value) = some "") then
        "Unknown2"
      else
        match (if rule.spec_name ≠ "" then
                 (lookupChosen mm rule.spec_name).bind (fun c => c.value)
               else none),
              (if rule.field ≠ "" then defect.fields.lookup rule.field else none) with
        | some s, some f =>
            if rule.op ∈ OPS then
              match pyFloat s, pyFloat f with
              | some sn, some fn => if evalCmp rule.op fn sn then rule.ok else rule.fail
              | _, _ =>
                  if rule.op = "==" then
                    if pyLower f = pyLower s then rule.ok else rule.fail
                  else "Unknown3"
            else "Unknown3"
        | _, _ => "Unknown3"

/-! ## Theorems -/

/-- C1: the claim says the `priority` resolution strategy always selects a
variant of numerically smallest priority, ties broken by the most recent
insertion timestamp, both for the pipeline's merged master and for the
`/specs/` merged view.  The code diverges twice: the `/specs/` fold keeps
the row with the numerically larger priority, so with variants of priority
1 and 3 present it returns the priority-3 variant; and the pipeline merge
sorts ascending by `(priority, added_at)` and takes the first element, so a
priority tie is broken by the earliest, not the most recent, timestamp. -/
theorem C1_priority_strategy_divergence :
    get_specs_priority
        [⟨"max_pressure", some "10", some "bar", "max pressure 10 bar", "DOCX", 1, 100, 100⟩,
         ⟨"max_pressure", some "7", some "bar", "max pressure 7 bar", "Image", 3, 200, 200⟩]
      = [("max_pressure",
          ⟨"max_pressure", some "7", some "bar", "max pressure 7 bar", "Image", 3, 200, 200⟩)]
    ∧ ((1 : Int) < 3)
    ∧ chooseVariant
        [⟨"max_pressure", some "new", some "bar", "line2", "DOCX", 1, 200, 200⟩,
         ⟨"max_pressure", some "old", some "bar", "line1", "DOCX", 1, 100, 100⟩]
      = some ⟨"max_pressure", some "old", some "bar", "line1", "DOCX", 1, 100, 100⟩
    ∧ (100 : Nat) < 200 := by
  decide

/-- C2: the claim says that once a USER override (priority 0) is stored for
a parameter, the priority-strategy chosen value equals the override value
regardless of other variants.  In the `/specs/` priority view the fold
keeps the numerically larger priority, so the USER row (priority 0, value
"99") loses to a DOCX row (priority 1, value "10"); the pipeline merge, by
contrast, does pick the USER row. -/
theorem C2_override_loses_in_specs_view :
    get_specs_priority
        [⟨"max_pressure", some "99", some "bar", "USER_EDIT:99 bar", "USER", 0, 300, 300⟩,
         ⟨"max_pressure", some "10", some "bar", "max pressure 10 bar", "DOCX", 1, 100, 100⟩]
      = [("max_pressure",
          ⟨"max_pressure", some "10", some "bar", "max pressure 10 bar", "DOCX", 1, 100, 100⟩)]
    ∧ chooseVariant
        [⟨"max_pressure", some "99", some "bar", "USER_EDIT:99 bar", "USER", 0, 300, 300⟩,
         ⟨"max_pressure", some "10", some "bar", "max pressure 10 bar", "DOCX", 1, 100, 100⟩]
      = some ⟨"max_pressure", some "99", some "bar", "USER_EDIT:99 bar", "USER", 0, 300, 300⟩
    ∧ (some "10" : Option String) ≠ some "99" := by
  decide

/-- C5: the claim says a temperature parameter with extracted unit `f` is
stored Fahrenheit-converted, `(v - 32) * 5/9`.  The orchestrator passes the
capital target `"C"`, which fails the `target in ("c", "°c", "celsius")`
test inside `normalize_numeric` (only the unit is lower-cased, never the
target), so the value 212 passes through unconverted even though the very
same call with target `"celsius"` would produce 100. -/
theorem C5_fahrenheit_conversion_unreachable :
    chooseTarget "max_temperature" = some "C"
    ∧ normalize_numeric "212" "f" "C" = some 212
    ∧ normalize_numeric "212" "f" "celsius" = some 100
    ∧ lineNormValue "max_temperature" "212" "f" = NormOutcome.num 212
    ∧ ((212 : ℚ) - 32) * 5 / 9 ≠ 212 := by
  refine ⟨rfl, ?_, ?_, ?_, by norm_num⟩
  · rw [show (212 : ℚ) = ((212 : ℕ) : ℚ) by norm_num]; rfl
  · rw [show (100 : ℚ) = (((212 : ℕ) : ℚ) - 32) * 5 / 9 by norm_num]; rfl
  · rw [show (212 : ℚ) = ((212 : ℕ) : ℚ) by norm_num]; rfl

/-- C8: the claim says a matched unit token `micron` is returned as `µm`.
In the ordered alternation `mm|cm|m|µm|um|micron|...` the single-letter
alternative `m` is tried before `micron` and matches every occurrence of
the word, so the token `micron` is never the matched group and the
`replace("micron", "µm")` canonicalization never fires: a micron line comes
back with unit `m` (the case-insensitive spelling included). -/
theorem C8_micron_shadowed_by_m :
    extract_value_unit "5 micron" = (some "5", some "m")
    ∧ extract_value_unit "5 MICRON" = (some "5", some "m")
    ∧ tryUnits unitAlternatives "micron".data = some "m".data
    ∧ (some "m" : Option String) ≠ some "µm" := by
  decide

/-- C9: the unit normalizer computes the stated conversions: 10 cm is
100 mm, 100 um is 0.1 mm, and 14.5 psi is 14.5 · 0.0689476 bar =
0.9997402 bar, which lies within 0.001 of 0.9997. -/
theorem C9_normalize_round_trip :
    normalize_numeric "10" "cm" "mm" = some 100
    ∧ normalize_numeric "100" "um" "mm" = some (1 / 10)
    ∧ normalize_numeric "14.5" "psi" "bar" = some (9997402 / 10000000)
    ∧ (9997402 / 10000000 : ℚ) = (145 / 10) * (689476 / 10000000)
    ∧ (9997 / 10000 : ℚ) ≤ 9997402 / 10000000
    ∧ (9997402 / 10000000 : ℚ) < 9997 / 10000 + 1 / 1000 := by
  refine ⟨?_, ?_, ?_, by norm_num, by norm_num, by norm_num⟩
  · rw [show (100 : ℚ) = ((10 : ℕ) : ℚ) * 10 by norm_num]; rfl
  · rw [show (1 / 10 : ℚ) = ((100 : ℕ) : ℚ) / 1000 by norm_num]; rfl
  · rw [show (9997402 / 10000000 : ℚ)
          = (((14 : ℕ) : ℚ) + ((5 : ℕ) : ℚ) / (10 ^ 1 : ℚ)) * (689476 / 10000000 : ℚ)
        by norm_num]
    rfl

/-! ### Helper lemmas about the store operations -/

theorem length_updateFirst (p : α → Bool) (f : α → α) (l : List α) :
    (updateFirst p f l).length = l.length := by
  induction l with
  | nil => rfl
  | cons x xs ih =>
      unfold updateFirst
      split <;> simp [ih]

theorem any_updateFirst (p q : α → Bool) (f : α → α) (hf : ∀ a, q (f a) = q a)
    (l : List α) : (updateFirst p f l).any q = l.any q := by
  induction l with
  | nil => rfl
  | cons x xs ih =>
      unfold updateFirst
      split <;> simp [List.any_cons, hf, ih]

theorem mem_updateFirst (p : α → Bool) (f : α → α) (l : List α) (x : α)
    (hx : x ∈ updateFirst p f l) : x ∈ l ∨ ∃ y ∈ l, p y = true ∧ x = f y := by
  induction l with
  | nil => cases hx
  | cons a as ih =>
      unfold updateFirst at hx
      by_cases hp : p a = true
      · rw [if_pos hp] at hx
        rcases List.mem_cons.mp hx with hx1 | hx2
        · exact Or.inr ⟨a, List.mem_cons_self a as, hp, hx1⟩
        · exact Or.inl (List.mem_cons_of_mem a hx2)
      · rw [if_neg hp] at hx
        rcases List.mem_cons.mp hx with hx1 | hx2
        · exact Or.inl (hx1 ▸ List.mem_cons_self a as)
        · rcases ih hx2 with h1 | ⟨y, hy, hpy, hxy⟩
          · exact Or.inl (List.mem_cons_of_mem a h1)
          · exact Or.inr ⟨y, List.mem_cons_of_mem a hy, hpy, hxy⟩

theorem filter_updateFirst (p q : α → Bool) (f : α → α) (hf : ∀ a, q (f a) = q a)
    (l : List α) : ((updateFirst p f l).filter q).length = (l.filter q).length := by
  induction l with
  | nil => rfl
  | cons x xs ih =>
      unfold updateFirst
      split
      · simp only [List.filter_cons, hf]
        split <;> simp [ih]
      · simp only [List.filter_cons]
        split <;> simp [ih]

theorem matchKey_overwrite (w v : Variant) (r : SpecRow) :
    matchKey w { r with value := v.value, unit := v.unit, priority := v.priority }
      = matchKey w r := rfl

theorem any_upsertVariant_mono (s : List SpecRow) (v w : Variant) (t : Nat)
    (h : s.any (matchKey w) = true) :
    (upsertVariant s v t).any (matchKey w) = true := by
  unfold upsertVariant
  split
  · rw [any_updateFirst _ _ _ (fun r => matchKey_overwrite w v r)]
    exact h
  · simp [List.any_append, h]

theorem any_upsertVariant_self (s : List SpecRow) (v : Variant) (t : Nat) :
    (upsertVariant s v t).any (matchKey v) = true := by
  unfold upsertVariant
  split
  · next h =>
      rw [any_updateFirst _ _ _ (fun r => matchKey_overwrite v v r)]
      exact h
  · simp [List.any_append, matchKey]

theorem length_upsertVariant_of_any (s : List SpecRow) (v : Variant) (t : Nat)
    (h : s.any (matchKey v) = true) :
    (upsertVariant s v t).length = s.length := by
  unfold upsertVariant
  rw [if_pos h]
  exact length_updateFirst _ _ _

theorem any_upsertAll_mono (store : List SpecRow) (vs : List Variant) (t : Nat)
    (w : Variant) (h : store.any (matchKey w) = true) :
    (upsertAll store vs t).any (matchKey w) = true := by
  induction vs generalizing store with
  | nil => exact h
  | cons v vs ih =>
      exact ih (upsertVariant store v t) (any_upsertVariant_mono store v w t h)

theorem upsertAll_key_present (store : List SpecRow) (vs : List Variant) (t : Nat)
    (v : Variant) (hv : v ∈ vs) :
    (upsertAll store vs t).any (matchKey v) = true := by
  induction vs generalizing store with
  | nil => cases hv
  | cons w ws ih =>
      rcases List.mem_cons.mp hv with h1 | h2
      · subst h1
        exact any_upsertAll_mono (upsertVariant store v t) ws t v
          (any_upsertVariant_self store v t)
      · exact ih (upsertVariant store w t) h2

theorem length_upsertAll_of_keys (store : List SpecRow) (vs : List Variant) (t : Nat)
    (h : ∀ v ∈ vs, store.any (matchKey v) = true) :
    (upsertAll store vs t).length = store.length := by
  induction vs generalizing store with
  | nil => rfl
  | cons v ws ih =>
      have hstep := length_upsertVariant_of_any store v t (h v (List.mem_cons_self v ws))
      have hrest : ∀ w ∈ ws, (upsertVariant store v t).any (matchKey w) = true :=
        fun w hw => any_upsertVariant_mono store v w t (h w (List.mem_cons_of_mem v hw))
      calc (upsertAll (upsertVariant store v t) ws t).length
          = (upsertVariant store v t).length := ih (upsertVariant store v t) hrest
        _ = store.length := hstep

/-- C3: re-processing a variant whose (parameter, source, raw) key already
exists overwrites the matching row in place, keeping the row count, and
therefore replaying the full variant list of a run leaves the store's row
count unchanged: the count after the second identical run equals the count
after the first. -/
theorem C3_extraction_idempotent (store : List SpecRow) (vs : List Variant)
    (t1 t2 : Nat) (v : Variant) (t : Nat) (h : store.any (matchKey v) = true) :
    (upsertVariant store v t).length = store.length
    ∧ (upsertAll (upsertAll store vs t1) vs t2).length = (upsertAll store vs t1).length := by
  refine ⟨length_upsertVariant_of_any store v t h, ?_⟩
  exact length_upsertAll_of_keys _ vs t2
    (fun w hw => upsertAll_key_present store vs t1 w hw)

/-- Witness for C3 at a concrete store and run. -/
theorem C3_extraction_idempotent_witness :
    (upsertVariant
        [⟨"max_pressure", some "10", some "bar", "max pressure 10 bar", "DOCX", 1, 1, 1⟩]
        ⟨"max_pressure", "max pressure 10 bar", some "10", some "bar", "DOCX", 1⟩ 2).length
      = ([⟨"max_pressure", some "10", some "bar", "max pressure 10 bar", "DOCX", 1, 1, 1⟩] :
          List SpecRow).length
    ∧ (upsertAll
        (upsertAll
          [⟨"max_pressure", some "10", some "bar", "max pressure 10 bar", "DOCX", 1, 1, 1⟩]
          [⟨"max_pressure", "max pressure 10 bar", some "10", some "bar", "DOCX", 1⟩,
           ⟨"cap_diameter", "Cap diameter: 25mm", some "25", some "mm", "PDF", 2⟩] 1)
        [⟨"max_pressure", "max pressure 10 bar", some "10", some "bar", "DOCX", 1⟩,
         ⟨"cap_diameter", "Cap diameter: 25mm", some "25", some "mm", "PDF", 2⟩] 2).length
      = (upsertAll
          [⟨"max_pressure", some "10", some "bar", "max pressure 10 bar", "DOCX", 1, 1, 1⟩]
          [⟨"max_pressure", "max pressure 10 bar", some "10", some "bar", "DOCX", 1⟩,
           ⟨"cap_diameter", "Cap diameter: 25mm", some "25", some "mm", "PDF", 2⟩] 1).length :=
  C3_extraction_idempotent
    [⟨"max_pressure", some "10", some "bar", "max pressure 10 bar", "DOCX", 1, 1, 1⟩]
    [⟨"max_pressure", "max pressure 10 bar", some "10", some "bar", "DOCX", 1⟩,
     ⟨"cap_diameter", "Cap diameter: 25mm", some "25", some "mm", "PDF", 2⟩]
    1 2
    ⟨"max_pressure", "max pressure 10 bar", some "10", some "bar", "DOCX", 1⟩ 2
    (by decide)

/-- C4: a manual-override write never leaves more than one `USER`-sourced
row for the parameter (given at most one existed before), and every row the
write creates or rewrites carries priority `0` and the synthetic raw string
`USER_EDIT:<value> <unit>` (trailing space stripped when no unit is
given). -/
theorem C4_user_override_invariant (store : List SpecRow) (param value : String)
    (unit : Option String) (source : String) (t : Nat)
    (h : countUser store param ≤ 1) :
    countUser (update_specs_entry store param value unit source t) param ≤ 1
    ∧ ∀ r ∈ update_specs_entry store param value unit source t,
        r ∈ store ∨ (r.priority = 0 ∧ r.raw = userRaw value unit ∧ r.param = param) := by
  unfold update_specs_entry
  split
  · exact ⟨h, fun r hr => Or.inl hr⟩
  · split
    · next hex =>
        constructor
        · unfold countUser
          rw [filter_updateFirst
                (fun r : SpecRow => decide (r.param = param ∧ r.source = "USER"))
                (fun r : SpecRow => decide (r.param = param ∧ r.source = "USER"))
                (fun r : SpecRow =>
                  { r with
                    value := some (pyStrip value)
                    unit := if unit.getD "" = "" then r.unit else unit
                    raw := userRaw value unit
                    priority := 0 })
                (fun a => rfl) store]
          exact h
        · intro r hr
          rcases mem_updateFirst _ _ _ _ hr with h1 | ⟨y, hy, hpy, hxy⟩
          · exact Or.inl h1
          · right
            have hyp : y.param = param := (of_decide_eq_true hpy).1
            exact ⟨by rw [hxy], by rw [hxy], by rw [hxy]; exact hyp⟩
    · next hex =>
        have hnone : store.filter
            (fun r => decide (r.param = param ∧ r.source = "USER")) = [] := by
          rw [List.filter_eq_nil_iff]
          intro a ha hqa
          exact hex (List.any_eq_true.mpr ⟨a, ha, hqa⟩)
        constructor
        · unfold countUser
          rw [List.filter_append, hnone]
          simp only [List.nil_append]
          exact List.length_filter_le _ _
        · intro r hr
          rcases List.mem_append.mp hr with h1 | h2
          · exact Or.inl h1
          · right
            have : r = ⟨param, some (pyStrip value), some (unit.getD ""),
                userRaw value unit, source, 0, t, t⟩ := List.mem_singleton.mp h2
            rw [this]
            exact ⟨rfl, rfl, rfl⟩

/-- Witness for C4: overriding `max_pressure` over a store holding one DOCX
variant and one earlier USER variant. -/
theorem C4_user_override_invariant_witness :
    countUser
      (update_specs_entry
        [⟨"max_pressure", some "10", some "bar", "max pressure 10 bar", "DOCX", 1, 1, 1⟩,
         ⟨"max_pressure", some "99", some "bar", "USER_EDIT:99 bar", "USER", 0, 2, 2⟩]
        "max_pressure" "15" (some "bar") "USER" 3) "max_pressure" ≤ 1
    ∧ ∀ r ∈ update_specs_entry
        [⟨"max_pressure", some "10", some "bar", "max pressure 10 bar", "DOCX", 1, 1, 1⟩,
         ⟨"max_pressure", some "99", some "bar", "USER_EDIT:99 bar", "USER", 0, 2, 2⟩]
        "max_pressure" "15" (some "bar") "USER" 3,
        r ∈ [⟨"max_pressure", some "10", some "bar", "max pressure 10 bar", "DOCX", 1, 1, 1⟩,
             ⟨"max_pressure", some "99", some "bar", "USER_EDIT:99 bar", "USER", 0, 2, 2⟩]
        ∨ (r.priority = 0 ∧ r.raw = userRaw "15" (some "bar") ∧ r.param = "max_pressure") :=
  C4_user_override_invariant
    [⟨"max_pressure", some "10", some "bar", "max pressure 10 bar", "DOCX", 1, 1, 1⟩,
     ⟨"max_pressure", some "99", some "bar", "USER_EDIT:99 bar", "USER", 0, 2, 2⟩]
    "max_pressure" "15" (some "bar") "USER" 3 (by decide)

/-- C10: the merged master built after a processing run has exactly one
entry per catalog parameter — the catalog's eleven distinct keys, in
order — and a parameter with no stored variant receives a `none` chosen
variant, an empty variants list, and an all-empty snapshot row. -/
theorem C10_full_catalog_keyset (store : List SpecRow) (p : String)
    (hp : p ∈ CANONICAL_PARAMS) (hnone : paramRows store p = []) :
    (buildMergedMaster store).map Prod.fst = CANONICAL_PARAMS
    ∧ CANONICAL_PARAMS.length = 11
    ∧ CANONICAL_PARAMS.Nodup
    ∧ (p, (⟨none, []⟩ : MasterEntry)) ∈ buildMergedMaster store
    ∧ (⟨p, "", "", ""⟩ : SnapshotRow) ∈ snapshotRows (buildMergedMaster store) := by
  refine ⟨?_, rfl, by decide, ?_, ?_⟩
  · unfold buildMergedMaster
    rw [List.map_map]
    exact List.map_id CANONICAL_PARAMS
  · exact List.mem_map.mpr ⟨p, hp, by rw [hnone]; rfl⟩
  · exact List.mem_map.mpr
      ⟨(p, (⟨none, []⟩ : MasterEntry)),
       List.mem_map.mpr ⟨p, hp, by rw [hnone]; rfl⟩, rfl⟩

/-- Witness for C10: the empty store and the parameter `max_pressure`. -/
theorem C10_full_catalog_keyset_witness :
    (buildMergedMaster []).map Prod.fst = CANONICAL_PARAMS
    ∧ CANONICAL_PARAMS.length = 11
    ∧ CANONICAL_PARAMS.Nodup
    ∧ ("max_pressure", (⟨none, []⟩ : MasterEntry)) ∈ buildMergedMaster []
    ∧ (⟨"max_pressure", "", "", ""⟩ : SnapshotRow) ∈ snapshotRows (buildMergedMaster []) :=
  C10_full_catalog_keyset [] "max_pressure" (by decide) rfl

/-- C6: for a normal rule (no special tag) whose operator is one of `<=`,
`<`, `>=`, `>`, `==`, when the resolved spec value and the defect record's
named field both parse as numbers, the decision is the rule's `ok` outcome
exactly when `field-value op spec-value` holds, and the `fail` outcome
otherwise; instantiated at the dent / max-pressure example by the
witness. -/
theorem C6_numeric_rule_evaluation (rules : List DefectRule) (defect : Defect)
    (mm : List (String × MasterEntry)) (rule : DefectRule) (rest : List DefectRule)
    (c : SpecRow) (s f : String) (sn fn : ℚ)
    (hfilter : rules.filter
        (fun r => pyLower r.defect_type = pyLower defect.defect_type) = rule :: rest)
    (hspecial1 : pyLower rule.special ≠ "always_fail")
    (hspecial2 : pyLower rule.special ≠ "coating")
    (hname : rule.spec_name ≠ "")
    (hchosen : lookupChosen mm rule.spec_name = some c)
    (hval : c.value = some s)
    (hs : s ≠ "")
    (hfield : rule.field ≠ "")
    (hlookup : defect.fields.lookup rule.field = some f)
    (hop : rule.op ∈ OPS)
    (hsn : pyFloat s = some sn)
    (hfn : pyFloat f = some fn) :
    classify_defect_with_master rules defect mm
      = if evalCmp rule.op fn sn then rule.ok else rule.fail := by
  have hbind : (lookupChosen mm rule.spec_name).bind (fun c => c.value) = some s := by
    rw [hchosen, Option.some_bind, hval]
  unfold classify_defect_with_master
  simp only [hfilter, hbind, hlookup]
  rw [if_neg hspecial1, if_neg hspecial2,
      if_neg (show ¬(rule.spec_name ≠ "" ∧
          ((some s : Option String) = none ∨ (some s : Option String) = some "")) by
        intro hcon
        rcases hcon.2 with h1 | h2
        · cases h1
        · exact hs (Option.some_inj.mp h2)),
      if_pos hname, if_pos hfield]
  simp only [hsn, hfn]
  rw [if_pos hop]

/-- Witness for C6: the dent rule against a merged master resolving
`max_pressure` to 10, with measured pressures 8 (repairable) and 12 (not
repairable). -/
theorem C6_numeric_rule_evaluation_witness :
    classify_defect_with_master
        [⟨"dent", "", "max_pressure", "measured_pressure", "<=", "Repairable", "Not Repairable"⟩]
        ⟨"dent", [("measured_pressure", "8")]⟩
        [("max_pressure",
          ⟨some ⟨"max_pressure", some "10", some "bar", "max pressure 10 bar", "DOCX", 1, 1, 1⟩,
           [⟨"max_pressure", some "10", some "bar", "max pressure 10 bar", "DOCX", 1, 1, 1⟩]⟩)]
      = "Repairable"
    ∧ classify_defect_with_master
        [⟨"dent", "", "max_pressure", "measured_pressure", "<=", "Repairable", "Not Repairable"⟩]
        ⟨"dent", [("measured_pressure", "12")]⟩
        [("max_pressure",
          ⟨some ⟨"max_pressure", some "10", some "bar", "max pressure 10 bar", "DOCX", 1, 1, 1⟩,
           [⟨"max_pressure", some "10", some "bar", "max pressure 10 bar", "DOCX", 1, 1, 1⟩]⟩)]
      = "Not Repairable" := by
  constructor
  · rw [C6_numeric_rule_evaluation
        [⟨"dent", "", "max_pressure", "measured_pressure", "<=", "Repairable", "Not Repairable"⟩]
        ⟨"dent", [("measured_pressure", "8")]⟩
        [("max_pressure",
          ⟨some ⟨"max_pressure", some "10", some "bar", "max pressure 10 bar", "DOCX", 1, 1, 1⟩,
           [⟨"max_pressure", some "10", some "bar", "max pressure 10 bar", "DOCX", 1, 1, 1⟩]⟩)]
        ⟨"dent", "", "max_pressure", "measured_pressure", "<=", "Repairable", "Not Repairable"⟩
        [] ⟨"max_pressure", some "10", some "bar", "max pressure 10 bar", "DOCX", 1, 1, 1⟩
        "10" "8" ((10 : ℕ) : ℚ) ((8 : ℕ) : ℚ)
        rfl (by decide) (by decide) (by decide) rfl rfl (by decide) (by decide) rfl
        (by decide) rfl rfl]
    rfl
  · rw [C6_numeric_rule_evaluation
        [⟨"dent", "", "max_pressure", "measured_pressure", "<=", "Repairable", "Not Repairable"⟩]
        ⟨"dent", [("measured_pressure", "12")]⟩
        [("max_pressure",
          ⟨some ⟨"max_pressure", some "10", some "bar", "max pressure 10 bar", "DOCX", 1, 1, 1⟩,
           [⟨"max_pressure", some "10", some "bar", "max pressure 10 bar", "DOCX", 1, 1, 1⟩]⟩)]
        ⟨"dent", "", "max_pressure", "measured_pressure", "<=", "Repairable", "Not Repairable"⟩
        [] ⟨"max_pressure", some "10", some "bar", "max pressure 10 bar", "DOCX", 1, 1, 1⟩
        "10" "12" ((10 : ℕ) : ℚ) ((12 : ℕ) : ℚ)
        rfl (by decide) (by decide) (by decide) rfl rfl (by decide) (by decide) rfl
        (by decide) rfl rfl]
    rfl

/-- C7: defect classification is total (the embedding returns a string for
every input, and every result is a sentinel or one of the rule table's own
`ok`/`fail` outcomes), returns `Unknown1` when no rule matches the record's
defect type case-insensitively, returns `Unknown2` when the first matching
normal rule references a parameter that is absent from the merged master or
has an empty chosen value, returns `Unknown3` when the named field is
missing, when the operator is outside the supported five, or when a numeric
parse fails and the string-equality fallback (operator `==`) does not
apply, and the three sentinels are pairwise distinct. -/
theorem C7_sentinel_outcomes :
    (∀ (rules : List DefectRule) (defect : Defect) (mm : List (String × MasterEntry)),
      classify_defect_with_master rules defect mm = "Unknown1"
      ∨ classify_defect_with_master rules defect mm = "Unknown2"
      ∨ classify_defect_with_master rules defect mm = "Unknown3"
      ∨ ∃ r ∈ rules, classify_defect_with_master rules defect mm = r.ok
          ∨ classify_defect_with_master rules defect mm = r.fail)
    ∧ (∀ (rules : List DefectRule) (defect : Defect) (mm : List (String × MasterEntry)),
        rules.filter (fun r => pyLower r.defect_type = pyLower defect.defect_type) = [] →
        classify_defect_with_master rules defect mm = "Unknown1")
    ∧ (∀ (rules : List DefectRule) (defect : Defect) (mm : List (String × MasterEntry))
        (rule : DefectRule) (rest : List DefectRule),
        rules.filter (fun r => pyLower r.defect_type = pyLower defect.defect_type)
          = rule :: rest →
        pyLower rule.special ≠ "always_fail" →
        pyLower rule.special ≠ "coating" →
        rule.spec_name ≠ "" →
        ((lookupChosen mm rule.spec_name).bind (fun c => c.value) = none ∨
         (lookupChosen mm rule.spec_name).bind (fun c => c.value) = some "") →
        classify_defect_with_master rules defect mm = "Unknown2")
    ∧ (∀ (rules : List DefectRule) (defect : Defect) (mm : List (String × MasterEntry))
        (rule : DefectRule) (rest : List DefectRule) (s : String),
        rules.filter (fun r => pyLower r.defect_type = pyLower defect.defect_type)
          = rule :: rest →
        pyLower rule.special ≠ "always_fail" →
        pyLower rule.special ≠ "coating" →
        rule.spec_name ≠ "" →
        (lookupChosen mm rule.spec_name).bind (fun c => c.value) = some s →
        s ≠ "" →
        (if rule.field ≠ "" then defect.fields.lookup rule.field else none) = none →
        classify_defect_with_master rules defect mm = "Unknown3")
    ∧ (∀ (rules : List DefectRule) (defect : Defect) (mm : List (String × MasterEntry))
        (rule : DefectRule) (rest : List DefectRule) (s f : String),
        rules.filter (fun r => pyLower r.defect_type = pyLower defect.defect_type)
          = rule :: rest →
        pyLower rule.special ≠ "always_fail" →
        pyLower rule.special ≠ "coating" →
        rule.spec_name ≠ "" →
        (lookupChosen mm rule.spec_name).bind (fun c => c.value) = some s →
        s ≠ "" →
        (if rule.field ≠ "" then defect.fields.lookup rule.field else none) = some f →
        rule.op ∉ OPS →
        classify_defect_with_master rules defect mm = "Unknown3")
    ∧ (∀ (rules : List DefectRule) (defect : Defect) (mm : List (String × MasterEntry))
        (rule : DefectRule) (rest : List DefectRule) (s f : String),
        rules.filter (fun r => pyLower r.defect_type = pyLower defect.defect_type)
          = rule :: rest →
        pyLower rule.special ≠ "always_fail" →
        pyLower rule.special ≠ "coating" →
        rule.spec_name ≠ "" →
        (lookupChosen mm rule.spec_name).bind (fun c => c.value) = some s →
        s ≠ "" →
        (if rule.field ≠ "" then defect.fields.lookup rule.field else none) = some f →
        rule.op ∈ OPS →
        rule.op ≠ "==" →
        (pyFloat s = none ∨ pyFloat f = none) →
        classify_defect_with_master rules defect mm = "Unknown3")
    ∧ ("Unknown1" ≠ "Unknown2" ∧ "Unknown1" ≠ "Unknown3" ∧ "Unknown2" ≠ "Unknown3") := by
  refine ⟨?_, ?_, ?_, ?_, ?_, ?_, by decide⟩
  · intro rules defect mm
    rcases hfil : rules.filter (fun r => pyLower r.defect_type = pyLower defect.defect_type)
      with _ | ⟨rule, rest⟩
    · unfold classify_defect_with_master
      rw [hfil]
      exact Or.inl rfl
    · have hr : rule ∈ rules := List.mem_of_mem_filter
        (show rule ∈ rules.filter
            (fun r => pyLower r.defect_type = pyLower defect.defect_type) by
          rw [hfil]; exact List.mem_cons_self rule rest)
      unfold classify_defect_with_master
      simp only [hfil]
      repeat' split
      all_goals first
        | exact Or.inl rfl
        | exact Or.inr (Or.inl rfl)
        | exact Or.inr (Or.inr (Or.inl rfl))
        | exact Or.inr (Or.inr (Or.inr ⟨rule, hr, Or.inl rfl⟩))
        | exact Or.inr (Or.inr (Or.inr ⟨rule, hr, Or.inr rfl⟩))
  · intro rules defect mm hfil
    unfold classify_defect_with_master
    rw [hfil]
  · intro rules defect mm rule rest hfil hs1 hs2 hname hmiss
    unfold classify_defect_with_master
    simp only [hfil]
    rw [if_neg hs1, if_neg hs2, if_pos ⟨hname, hmiss⟩]
  · intro rules defect mm rule rest s hfil hs1 hs2 hname hbind hs hfield
    unfold classify_defect_with_master
    simp only [hfil, hbind, hfield]
    rw [if_neg hs1, if_neg hs2,
        if_neg (show ¬(rule.spec_name ≠ "" ∧
            ((some s : Option String) = none ∨ (some s : Option String) = some "")) by
          intro hcon
          rcases hcon.2 with h1 | h2
          · cases h1
          · exact hs (Option.some_inj.mp h2)),
        if_pos hname]
  · intro rules defect mm rule rest s f hfil hs1 hs2 hname hbind hs hfield hop
    unfold classify_defect_with_master
    simp only [hfil, hbind, hfield]
    rw [if_neg hs1, if_neg hs2,
        if_neg (show ¬(rule.spec_name ≠ "" ∧
            ((some s : Option String) = none ∨ (some s : Option String) = some "")) by
          intro hcon
          rcases hcon.2 with h1 | h2
          · cases h1
          · exact hs (Option.some_inj.mp h2)),
        if_pos hname]
    simp only [if_neg hop]
  · intro rules defect mm rule rest s f hfil hs1 hs2 hname hbind hs hfield hop hne hfail
    unfold classify_defect_with_master
    simp only [hfil, hbind, hfield]
    rw [if_neg hs1, if_neg hs2,
        if_neg (show ¬(rule.spec_name ≠ "" ∧
            ((some s : Option String) = none ∨ (some s : Option String) = some "")) by
          intro hcon
          rcases hcon.2 with h1 | h2
          · cases h1
          · exact hs (Option.some_inj.mp h2)),
        if_pos hname]
    rcases hfail with h1 | h2
    · simp only [h1]
      rw [if_pos hop, if_neg hne]
    · rcases hps : pyFloat s with _ | sn
      · simp only [hps]
        rw [if_pos hop, if_neg hne]
      · simp only [hps, h2]
        rw [if_pos hop, if_neg hne]

/-- Witness for C7: no matching rule gives `Unknown1`; a dent rule whose
`max_pressure` is absent from the master gives `Unknown2`; a dent rule whose
defect record lacks the named field gives `Unknown3`. -/
theorem C7_sentinel_outcomes_witness :
    classify_defect_with_master [] ⟨"dent", []⟩ [] = "Unknown1"
    ∧ classify_defect_with_master
        [⟨"dent", "", "max_pressure", "measured_pressure", "<=", "Repairable", "Not Repairable"⟩]
        ⟨"dent", [("measured_pressure", "8")]⟩ [] = "Unknown2"
    ∧ classify_defect_with_master
        [⟨"dent", "", "max_pressure", "measured_pressure", "<=", "Repairable", "Not Repairable"⟩]
        ⟨"dent", []⟩
        [("max_pressure",
          ⟨some ⟨"max_pressure", some "10", some "bar", "max pressure 10 bar", "DOCX", 1, 1, 1⟩,
           [⟨"max_pressure", some "10", some "bar", "max pressure 10 bar", "DOCX", 1, 1, 1⟩]⟩)]
      = "Unknown3" := by
  refine ⟨C7_sentinel_outcomes.2.1 [] ⟨"dent", []⟩ [] rfl, ?_, ?_⟩
  · exact C7_sentinel_outcomes.2.2.1
      [⟨"dent", "", "max_pressure", "measured_pressure", "<=", "Repairable", "Not Repairable"⟩]
      ⟨"dent", [("measured_pressure", "8")]⟩ []
      ⟨"dent", "", "max_pressure", "measured_pressure", "<=", "Repairable", "Not Repairable"⟩
      [] rfl (by decide) (by decide) (by decide) (Or.inl rfl)
  · exact C7_sentinel_outcomes.2.2.2.1
      [⟨"dent", "", "max_pressure", "measured_pressure", "<=", "Repairable", "Not Repairable"⟩]
      ⟨"dent", []⟩
      [("max_pressure",
        ⟨some ⟨"max_pressure", some "10", some "bar", "max pressure 10 bar", "DOCX", 1, 1, 1⟩,
         [⟨"max_pressure", some "10", some "bar", "max pressure 10 bar", "DOCX", 1, 1, 1⟩]⟩)]
      ⟨"dent", "", "max_pressure", "measured_pressure", "<=", "Repairable", "Not Repairable"⟩
      [] "10" rfl (by decide) (by decide) (by decide) rfl (by decide) rfl

end SpecPipeline
